import Mathlib

/-!
Shallow embedding of the LexIntake frontend (src/frontend/src/App.jsx and
src/frontend/src/components/AnalysisResults.jsx, which bundles the
AnalysisResults and UploadSection components).  Pure fragments of the JSX
code are translated into executable Lean definitions; the stateful React
pieces become explicit state-transition functions.
-/

namespace LexIntake

/-- A browser File object as seen by the dropzones: the pieces the code
inspects are its name, its MIME type string and its byte size. -/
structure BFile where
  name : String
  type : String
  size : Nat
deriving DecidableEq, Repr

/-- The maxSize option passed to both useDropzone calls (10485760 bytes). -/
def maxFileSize : Nat := 10485760

/-- The accept option of the main-report dropzone, flattened the way
react-dropzone turns the accept object into an attr-accept list:
keys are MIME patterns, values are extensions. -/
def reportAcceptList : List String :=
  ["application/pdf", ".pdf", "image/*", ".png", ".jpg", ".jpeg", ".gif", ".bmp"]

/-- The accept option of the photos dropzone, flattened likewise. -/
def photoAcceptList : List String :=
  ["image/*", ".png", ".jpg", ".jpeg", ".gif", ".bmp"]

/-- Character-level lowercasing of a string, the semantics of the
toLowerCase calls inside attr-accept (embedded at the character-list
level so that terms evaluate). -/
def lowerChars (s : String) : List Char := s.data.map Char.toLower

/-- Character-level suffix test, the semantics of the endsWith call
inside attr-accept. -/
def charsEndWith (s suffix : List Char) : Bool := suffix.isSuffixOf s

/-- The base part of a MIME type (everything before the first slash), as
computed by attr-accept via mimeType.replace with a slash-anchored
pattern; a string without a slash is returned whole. -/
def chopAtSlash (s : List Char) : List Char := s.takeWhile (fun c => c ≠ '/')

/-- attr-accept matching of one file against one accept-list entry:
an entry starting with a dot matches by lowercased file-name suffix, an
entry ending in a slash-star wildcard matches the base MIME type, any
other entry matches the full (lowercased) MIME type exactly. -/
def acceptsEntry (f : BFile) (e : String) : Bool :=
  match lowerChars e with
  | '.' :: tl => charsEndWith (lowerChars f.name) ('.' :: tl)
  | ec =>
    if charsEndWith ec ['/', '*'] then
      chopAtSlash (lowerChars f.type) == chopAtSlash ec
    else lowerChars f.type == ec

/-- attr-accept: a file passes the type filter when some entry matches. -/
def fileTypeAccepted (f : BFile) (accept : List String) : Bool :=
  accept.any (acceptsEntry f)

/-- react-dropzone acceptance of a single file: the attr-accept type check
together with the maxSize bound (a file is too large when size > maxSize). -/
def dropzoneAccepts (f : BFile) (accept : List String) : Bool :=
  fileTypeAccepted f accept && decide (f.size ≤ maxFileSize)

/-- react-dropzone drop handling for the main-report dropzone
(multiple: false): each dropped file is individually filtered by
dropzoneAccepts, and when more than one file survives, all of them are
rejected with a too-many-files error, leaving the accepted batch empty. -/
def reportAcceptedBatch (dropped : List BFile) : List BFile :=
  let acc := dropped.filter (fun f => dropzoneAccepts f reportAcceptList)
  if acc.length > 1 then [] else acc

/-- react-dropzone drop handling for the photos dropzone (multiple: true):
the accepted batch is the dropped files surviving dropzoneAccepts. -/
def photosAcceptedBatch (dropped : List BFile) : List BFile :=
  dropped.filter (fun f => dropzoneAccepts f photoAcceptList)

/-- UploadSection.onDropReport: when the accepted batch is non-empty the
first accepted file becomes the main report, otherwise the state is kept. -/
def onDropReport (cur : Option BFile) (accepted : List BFile) : Option BFile :=
  match accepted with
  | [] => cur
  | f :: _ => some f

/-- UploadSection.onDropPhotos: append the accepted batch to the current
photo list and keep only the first five entries (slice(0, 5)). -/
def onDropPhotos (prev : List BFile) (accepted : List BFile) : List BFile :=
  (prev ++ accepted).take 5

/-- UploadSection.removePhoto: drop the entry at the given index
(filter on the position, as the JSX does with the index argument). -/
def removePhoto (prev : List BFile) (index : Nat) : List BFile :=
  (prev.enum.filter (fun p => p.1 ≠ index)).map Prod.snd

/-- The user-visible events that can change the additionalPhotos state. -/
inductive PhotoOp where
  | drop (accepted : List BFile)
  | remove (index : Nat)
deriving Repr

/-- One step of the additionalPhotos state under a user event. -/
def photoStep (prev : List BFile) : PhotoOp → List BFile
  | .drop accepted => onDropPhotos prev accepted
  | .remove index => removePhoto prev index

/-- The additionalPhotos state reached from the initial empty list by a
sequence of drop/remove events. -/
def applyPhotoOps (ops : List PhotoOp) : List BFile :=
  ops.foldl photoStep []

/-- The clientInfo state of UploadSection: name, email and notes strings
(all initialized to the empty string). -/
structure ClientInfo where
  name : String
  email : String
  notes : String
deriving DecidableEq, Repr

/-- A value appended to the outgoing FormData: either a file part or a
plain string field. -/
inductive FormValue where
  | file (f : BFile)
  | str (s : String)
deriving DecidableEq, Repr

/-- The metadata part of the FormData built by UploadSection.handleSubmit:
each clientInfo field is appended only when it is truthy, i.e. not the
empty string, and is appended verbatim (no trimming). -/
def metadataPart (c : ClientInfo) : List (String × FormValue) :=
  (if c.name ≠ "" then [("client_name", FormValue.str c.name)] else [])
  ++ (if c.email ≠ "" then [("client_email", FormValue.str c.email)] else [])
  ++ (if c.notes ≠ "" then [("additional_notes", FormValue.str c.notes)] else [])

/-- The FormData assembled by UploadSection.handleSubmit once validation
passed: the accident_report file, then one photos entry per element of
additionalPhotos in list order, then the truthy metadata fields. -/
def buildFormData (mainReport : BFile) (photos : List BFile) (c : ClientInfo) :
    List (String × FormValue) :=
  ("accident_report", FormValue.file mainReport)
    :: photos.map (fun p => ("photos", FormValue.file p))
    ++ metadataPart c

/-- The photos entries of a FormData, in order. -/
def formDataPhotos (fd : List (String × FormValue)) : List BFile :=
  fd.filterMap (fun e =>
    if e.1 = "photos" then
      match e.2 with
      | FormValue.file f => some f
      | FormValue.str _ => none
    else none)

/-- UploadSection.validateForm: when no main report is selected, the
errors object gets the report message; validation succeeds exactly when
the errors object is empty. -/
def validateForm (mainReport : Option BFile) : List (String × String) :=
  match mainReport with
  | none => [("report", "Kaza Tespit Tutanağı is required")]
  | some _ => []

/-- The state of the UploadSection component that handleSubmit reads. -/
structure UploadState where
  mainReport : Option BFile
  additionalPhotos : List BFile
  clientInfo : ClientInfo
deriving Repr

/-- Outcome of UploadSection.handleSubmit: either the submit is blocked
client-side with the validation errors (onAnalyze is not called), or
onAnalyze is invoked with the assembled FormData. -/
inductive SubmitResult where
  | blocked (errors : List (String × String))
  | submitted (fd : List (String × FormValue))
deriving Repr

/-- UploadSection.handleSubmit: run validateForm; when it reports errors
return early without calling onAnalyze, otherwise build the FormData and
hand it to onAnalyze. -/
def handleSubmit (s : UploadState) : SubmitResult :=
  let errs := validateForm s.mainReport
  if errs.length = 0 then
    match s.mainReport with
    | some r => .submitted (buildFormData r s.additionalPhotos s.clientInfo)
    | none => .blocked errs
  else .blocked errs

/-- One photo_analyses entry of the result payload. -/
structure PhotoAnalysis where
  photo_id : Nat
  description : String
deriving DecidableEq, Repr

/-- The fault_assessment object of the result payload; null JSON fields
are modelled as none. -/
structure FaultAssessment where
  preliminary_fault_party : Option String
  party_a_fault_percentage : Option ℚ
  party_b_fault_percentage : Option ℚ
deriving DecidableEq, Repr

/-- The slice of the analysis object that the claims exercise; fields that
may be absent from the payload are Options. -/
structure CaseAnalysis where
  photo_analyses : List PhotoAnalysis
  fault_assessment : FaultAssessment
  extraction_confidence : Option ℚ
  missing_information : Option (List String)
deriving Repr

/-- The analyze-response payload as the frontend consumes it. -/
structure AnalysisResultData where
  session_id : String
  briefing_html : String
  analysis : CaseAnalysis
deriving Repr

/-- The App component state read and written by handleAnalyze. -/
structure AppState where
  currentStep : String
  analysisResult : Option AnalysisResultData
  error : Option String

/-- Outcome of the axios POST to /api/analyze: a success carries the
response data; a failure carries err.response?.data?.detail when the
server supplied one (a timeout or network error carries none). -/
inductive ApiOutcome where
  | success (data : AnalysisResultData)
  | failure (detail : Option String)

/-- The timeout option of the axios POST in App.handleAnalyze, in
milliseconds. -/
def analyzeTimeoutMs : Nat := 120000

/-- The fallback error text of App.handleAnalyze's catch branch. -/
def fallbackErrorMessage : String :=
  "An error occurred during analysis. Please try again."

/-- The message shown on a failed analyze call:
err.response?.data?.detail || fallback, where a missing detail and an
empty-string detail are both falsy in JavaScript. -/
def analyzeErrorMessage (detail : Option String) : String :=
  match detail with
  | some d => if d = "" then fallbackErrorMessage else d
  | none => fallbackErrorMessage

/-- App.handleAnalyze as a state transition: the step first becomes
analyzing and the error is cleared; on success the result is stored and
the step becomes results; on any failure the error message is stored, the
step returns to upload, and analysisResult is not written. -/
def handleAnalyzeResult (s : AppState) (o : ApiOutcome) : AppState :=
  let s1 : AppState := { s with currentStep := "analyzing", error := none }
  match o with
  | .success d => { s1 with currentStep := "results", analysisResult := some d }
  | .failure detail =>
      { s1 with currentStep := "upload", error := some (analyzeErrorMessage detail) }

/-- Effect of a click on one of the download buttons of AnalysisResults. -/
inductive DownloadAction where
  | saveFile (filename : String) (content : String) (mime : String)
  | alertMsg (msg : String)
  | nothing
deriving DecidableEq, Repr

/-- AnalysisResults.downloadBriefing: the html branch saves a Blob holding
result.briefing_html under the session-derived name; the pdf branch only
raises a placeholder alert. -/
def downloadBriefing (result : AnalysisResultData) (format : String) : DownloadAction :=
  if format = "html" then
    .saveFile ("lexintake_briefing_" ++ result.session_id ++ ".html")
      result.briefing_html "text/html"
  else if format = "pdf" then
    .alertMsg "PDF download will be implemented with backend integration"
  else
    .nothing

/-- Whether a download action actually delivers bytes to the user. -/
def deliversBytes : DownloadAction → Bool
  | .saveFile _ _ _ => true
  | _ => false

/-- JavaScript truthiness of result.analysis.extraction_confidence, the
guard of the data-quality card: an absent field and the number 0 are
falsy, every other number is truthy. -/
def showsConfidenceIndicator (a : CaseAnalysis) : Bool :=
  match a.extraction_confidence with
  | none => false
  | some q => q != 0

/-- The missing_information warning is nested inside the data-quality
card, guarded additionally by missing_information?.length > 0. -/
def showsMissingWarning (a : CaseAnalysis) : Bool :=
  showsConfidenceIndicator a
    && (match a.missing_information with
        | some l => decide (l.length > 0)
        | none => false)

/-- How JSX renders an optional numeric expression: null renders as
nothing (the empty string), a number renders via its decimal text. -/
def jsxNumText (q : Option ℚ) : String :=
  match q with
  | none => ""
  | some v => toString v

/-- The fault-distribution block of the summary tab. -/
inductive FaultBoxes where
  | hidden
  | shown (partyAText : String) (partyBText : String)
deriving DecidableEq, Repr

/-- The summary tab's fault-distribution rendering: guarded only by
party_a_fault_percentage !== null; when shown, each party box displays
the corresponding percentage expression followed by a percent sign, with
party_b_fault_percentage read without any presence check. -/
def renderFaultDistribution (fa : FaultAssessment) : FaultBoxes :=
  match fa.party_a_fault_percentage with
  | none => .hidden
  | some a => .shown (toString a ++ "%") (jsxNumText fa.party_b_fault_percentage ++ "%")

/-- The details tab maps photo_analyses in list order to cards labelled
with the entry's photo_id. -/
def renderPhotoLabels (l : List PhotoAnalysis) : List String :=
  l.map (fun p => "Photo " ++ toString p.photo_id)

/-- Modelled from the spec: the backend pipeline that fills photo_analyses
is not under src/ (only the frontend is); per §5 of the spec, photo
ordering in photo_analyses matches submission order so client-facing
numbering stays stable, i.e. the i-th submitted photo yields the i-th
entry, carrying photo id i+1. -/
def specPhotoAnalyses (descriptions : List String) : List PhotoAnalysis :=
  descriptions.enum.map (fun p => ⟨p.1 + 1, p.2⟩)

/-- The claim's allow-list of media types for intake, written from the
claim's words ({pdf, png, jpg, jpeg, gif, bmp}, read generously as the
matching MIME types or bare names) for comparison with the code's
dropzone configuration. -/
def claimMediaTypeAllowed (t : String) : Bool :=
  t ∈ ["application/pdf", "image/png", "image/jpg", "image/jpeg",
       "image/gif", "image/bmp", "pdf", "png", "jpg", "jpeg", "gif", "bmp"]

/-- Whitespace trimming of a string at the character level, the meaning
of "after trimming whitespace" in the metadata rule. -/
def jsTrim (s : String) : List Char :=
  ((s.data.dropWhile Char.isWhitespace).reverse.dropWhile Char.isWhitespace).reverse

/- Helper lemmas. -/

/-- acceptsEntry specialized to the application/pdf entry. -/
lemma acceptsEntry_pdfMime (f : BFile) :
    acceptsEntry f "application/pdf" = (lowerChars f.type == lowerChars "application/pdf") := rfl

/-- acceptsEntry specialized to the .pdf extension entry. -/
lemma acceptsEntry_pdfExt (f : BFile) :
    acceptsEntry f ".pdf" = charsEndWith (lowerChars f.name) (lowerChars ".pdf") := rfl

/-- acceptsEntry specialized to the image wildcard entry. -/
lemma acceptsEntry_imageWild (f : BFile) :
    acceptsEntry f "image/*"
      = (chopAtSlash (lowerChars f.type) == chopAtSlash (lowerChars "image/*")) := rfl

/-- acceptsEntry specialized to the .png extension entry. -/
lemma acceptsEntry_pngExt (f : BFile) :
    acceptsEntry f ".png" = charsEndWith (lowerChars f.name) (lowerChars ".png") := rfl

/-- acceptsEntry specialized to the .jpg extension entry. -/
lemma acceptsEntry_jpgExt (f : BFile) :
    acceptsEntry f ".jpg" = charsEndWith (lowerChars f.name) (lowerChars ".jpg") := rfl

/-- acceptsEntry specialized to the .jpeg extension entry. -/
lemma acceptsEntry_jpegExt (f : BFile) :
    acceptsEntry f ".jpeg" = charsEndWith (lowerChars f.name) (lowerChars ".jpeg") := rfl

/-- acceptsEntry specialized to the .gif extension entry. -/
lemma acceptsEntry_gifExt (f : BFile) :
    acceptsEntry f ".gif" = charsEndWith (lowerChars f.name) (lowerChars ".gif") := rfl

/-- acceptsEntry specialized to the .bmp extension entry. -/
lemma acceptsEntry_bmpExt (f : BFile) :
    acceptsEntry f ".bmp" = charsEndWith (lowerChars f.name) (lowerChars ".bmp") := rfl

/-- Characterization of the main-report dropzone's acceptance. -/
lemma reportAccept_iff (f : BFile) :
    dropzoneAccepts f reportAcceptList = true ↔
      ((lowerChars f.type = lowerChars "application/pdf"
        ∨ charsEndWith (lowerChars f.name) (lowerChars ".pdf") = true
        ∨ chopAtSlash (lowerChars f.type) = chopAtSlash (lowerChars "image/*")
        ∨ charsEndWith (lowerChars f.name) (lowerChars ".png") = true
        ∨ charsEndWith (lowerChars f.name) (lowerChars ".jpg") = true
        ∨ charsEndWith (lowerChars f.name) (lowerChars ".jpeg") = true
        ∨ charsEndWith (lowerChars f.name) (lowerChars ".gif") = true
        ∨ charsEndWith (lowerChars f.name) (lowerChars ".bmp") = true)
       ∧ f.size ≤ maxFileSize) := by
  simp only [dropzoneAccepts, fileTypeAccepted, reportAcceptList,
    List.any_cons, List.any_nil, acceptsEntry_pdfMime, acceptsEntry_pdfExt,
    acceptsEntry_imageWild, acceptsEntry_pngExt, acceptsEntry_jpgExt,
    acceptsEntry_jpegExt, acceptsEntry_gifExt, acceptsEntry_bmpExt,
    Bool.and_eq_true, Bool.or_eq_true, decide_eq_true_eq, beq_iff_eq,
    Bool.false_eq_true, or_false]

/-- Characterization of the photos dropzone's acceptance. -/
lemma photoAccept_iff (f : BFile) :
    dropzoneAccepts f photoAcceptList = true ↔
      ((chopAtSlash (lowerChars f.type) = chopAtSlash (lowerChars "image/*")
        ∨ charsEndWith (lowerChars f.name) (lowerChars ".png") = true
        ∨ charsEndWith (lowerChars f.name) (lowerChars ".jpg") = true
        ∨ charsEndWith (lowerChars f.name) (lowerChars ".jpeg") = true
        ∨ charsEndWith (lowerChars f.name) (lowerChars ".gif") = true
        ∨ charsEndWith (lowerChars f.name) (lowerChars ".bmp") = true)
       ∧ f.size ≤ maxFileSize) := by
  simp only [dropzoneAccepts, fileTypeAccepted, photoAcceptList,
    List.any_cons, List.any_nil, acceptsEntry_imageWild, acceptsEntry_pngExt,
    acceptsEntry_jpgExt, acceptsEntry_jpegExt, acceptsEntry_gifExt,
    acceptsEntry_bmpExt, Bool.and_eq_true, Bool.or_eq_true,
    decide_eq_true_eq, beq_iff_eq, Bool.false_eq_true, or_false]

/-- A file that fails the report dropzone's filter is not in any accepted
batch of that dropzone. -/
lemma not_mem_reportAcceptedBatch (f : BFile)
    (hrej : dropzoneAccepts f reportAcceptList = false) (dropped : List BFile) :
    f ∉ reportAcceptedBatch dropped := by
  intro hmem
  unfold reportAcceptedBatch at hmem
  simp only at hmem
  split at hmem
  · exact absurd hmem (List.not_mem_nil f)
  · have := List.of_mem_filter hmem
    rw [hrej] at this
    exact absurd this (by simp)

/-- One photo-state step keeps the list within five entries. -/
lemma photoStep_le (l : List BFile) (op : PhotoOp) (h : l.length ≤ 5) :
    (photoStep l op).length ≤ 5 := by
  cases op with
  | drop accepted =>
      simp only [photoStep, onDropPhotos, List.length_take]
      omega
  | remove index =>
      simp only [photoStep, removePhoto, List.length_map]
      calc (List.filter (fun p => decide (p.1 ≠ index)) l.enum).length
          ≤ l.enum.length := List.length_filter_le _ _
        _ = l.length := List.enum_length
        _ ≤ 5 := h

/-- Any photo-event sequence starting within the bound stays within it. -/
lemma foldl_photoStep_le :
    ∀ (ops : List PhotoOp) (l : List BFile), l.length ≤ 5 →
      (ops.foldl photoStep l).length ≤ 5 := by
  intro ops
  induction ops with
  | nil => intro l h; exact h
  | cons op rest ih => intro l h; exact ih _ (photoStep_le l op h)

/-- The photos entries contributed by the metadata fields: none. -/
lemma formDataPhotos_metadata (c : ClientInfo) : formDataPhotos (metadataPart c) = [] := by
  unfold formDataPhotos metadataPart
  split_ifs <;> simp

/-- The photos entries contributed by the photo parts: the photo list. -/
lemma formDataPhotos_photosPart (ps : List BFile) :
    formDataPhotos (ps.map (fun p => ("photos", FormValue.file p))) = ps := by
  induction ps with
  | nil => rfl
  | cons p t ih => simp [formDataPhotos] at ih ⊢; exact ih

/-- The photos entries of the assembled FormData are exactly the
additionalPhotos list, in order. -/
lemma formDataPhotos_build (rep : BFile) (ps : List BFile) (c : ClientInfo) :
    formDataPhotos (buildFormData rep ps c) = ps := by
  have h := formDataPhotos_metadata c
  have h2 := formDataPhotos_photosPart ps
  unfold formDataPhotos at h h2 ⊢
  unfold buildFormData
  simp [List.filterMap_append, h, h2]

/-- The photo labels of the spec-ordered analyses, indexed from an
arbitrary starting ordinal. -/
lemma enumFrom_photoLabels (n : Nat) (descs : List String) :
    (List.enumFrom n descs).map (fun p => "Photo " ++ toString (p.1 + 1))
      = (List.range' n descs.length).map (fun i => "Photo " ++ toString (i + 1)) := by
  induction descs generalizing n with
  | nil => rfl
  | cons d ds ih => simp [List.enumFrom, List.range', ih]

/-- Rendering the spec-ordered photo analyses yields the labels Photo 1,
Photo 2, ... in list order. -/
lemma renderPhotoLabels_spec (descs : List String) :
    renderPhotoLabels (specPhotoAnalyses descs)
      = (List.range descs.length).map (fun i => "Photo " ++ toString (i + 1)) := by
  rw [List.range_eq_range']
  rw [renderPhotoLabels, specPhotoAnalyses, List.map_map]
  exact enumFrom_photoLabels 0 descs

/-- Membership in the metadata part of the FormData, characterized. -/
lemma metadataPart_mem (c : ClientInfo) (k v : String) :
    (k, FormValue.str v) ∈ metadataPart c ↔
      ((k = "client_name" ∧ v = c.name ∧ c.name ≠ "")
       ∨ (k = "client_email" ∧ v = c.email ∧ c.email ≠ "")
       ∨ (k = "additional_notes" ∧ v = c.notes ∧ c.notes ≠ "")) := by
  unfold metadataPart
  split_ifs <;> simp_all

/- Concrete sample values used by witnesses and counterexamples. -/

/-- The initial UploadSection state: nothing selected yet. -/
def emptyUploadState : UploadState := ⟨none, [], ⟨"", "", ""⟩⟩

/-- A small WebP image file: not in the claim's media-type allow-list. -/
def webpFile : BFile := ⟨"crash.webp", "image/webp", 4096⟩

/-- A PDF file above the 10MB size cap. -/
def oversizePdf : BFile := ⟨"big.pdf", "application/pdf", 10485761⟩

/-- A small, well-formed PDF accident report. -/
def smallPdf : BFile := ⟨"tutanak.pdf", "application/pdf", 2048⟩

/-- A clientInfo whose name is a single space and whose other fields are
empty. -/
def spacedClientInfo : ClientInfo := ⟨" ", "", ""⟩

/-- A concrete analyze result used to exercise the download surface. -/
def sampleResult : AnalysisResultData :=
  ⟨"abc123", "<html><body>briefing</body></html>",
    ⟨[], ⟨none, none, none⟩, none, none⟩⟩

/-- An analysis with extraction confidence zero yet a non-empty
missing_information list. -/
def zeroConfidenceAnalysis : CaseAnalysis :=
  ⟨[], ⟨none, none, none⟩, some 0, some ["accident_details.date"]⟩

/-- A fault assessment with only party A's percentage present. -/
def partyAOnlyFault : FaultAssessment := ⟨some "Party B", some 70, none⟩

/- Claim theorems. -/

/-- Claim C1: when the submission state has no primary document,
handleSubmit is blocked client-side with the errors object holding the
message "Kaza Tespit Tutanağı is required", and never reaches the
submitted branch, so onAnalyze (and hence the POST to /api/analyze) is
not invoked. -/
theorem analyze_blocked_without_primary (s : UploadState) (h : s.mainReport = none) :
    handleSubmit s = .blocked [("report", "Kaza Tespit Tutanağı is required")]
    ∧ ∀ fd, handleSubmit s ≠ .submitted fd := by
  constructor
  · simp [handleSubmit, validateForm, h]
  · intro fd
    simp [handleSubmit, validateForm, h]

/-- Witness for C1: the initial state has no primary document and its
submission is blocked with the required-report error. -/
theorem analyze_blocked_without_primary_witness :
    handleSubmit emptyUploadState
      = .blocked [("report", "Kaza Tespit Tutanağı is required")] :=
  (analyze_blocked_without_primary emptyUploadState rfl).1

/-- Claim C2: every additionalPhotos state reachable from the empty list
by drop and remove events has at most 5 entries, and consequently every
FormData submitted from such a state carries at most 5 photos entries. -/
theorem photos_bounded_by_five (ops : List PhotoOp) :
    (applyPhotoOps ops).length ≤ 5
    ∧ ∀ (rep : BFile) (c : ClientInfo),
        (formDataPhotos (buildFormData rep (applyPhotoOps ops) c)).length ≤ 5 := by
  have hb : (applyPhotoOps ops).length ≤ 5 :=
    foldl_photoStep_le ops [] (by simp)
  refine ⟨hb, ?_⟩
  intro rep c
  rw [formDataPhotos_build]
  exact hb

/-- Counterexample to C3 as stated: a 4KB WebP image is accepted by the
main-report dropzone (it matches the image wildcard of the accept
config), although its media type image/webp is not in the claimed
allow-list {pdf, png, jpg, jpeg, gif, bmp}. -/
theorem report_accepts_beyond_claimed_types :
    dropzoneAccepts webpFile reportAcceptList = true
    ∧ claimMediaTypeAllowed webpFile.type = false := by
  constructor <;> decide

/-- Claim C3 (amended): the main-report dropzone accepts a file exactly
when its size is at most 10485760 bytes and it matches the configured
filter — MIME type application/pdf, any image MIME type (image wildcard),
or a lowercased file name ending in .pdf, .png, .jpg, .jpeg, .gif or
.bmp; and a file rejected by the filter never becomes the main report. -/
theorem report_accept_characterized (f : BFile) :
    (dropzoneAccepts f reportAcceptList = true ↔
      ((lowerChars f.type = lowerChars "application/pdf"
        ∨ charsEndWith (lowerChars f.name) (lowerChars ".pdf") = true
        ∨ chopAtSlash (lowerChars f.type) = chopAtSlash (lowerChars "image/*")
        ∨ charsEndWith (lowerChars f.name) (lowerChars ".png") = true
        ∨ charsEndWith (lowerChars f.name) (lowerChars ".jpg") = true
        ∨ charsEndWith (lowerChars f.name) (lowerChars ".jpeg") = true
        ∨ charsEndWith (lowerChars f.name) (lowerChars ".gif") = true
        ∨ charsEndWith (lowerChars f.name) (lowerChars ".bmp") = true)
       ∧ f.size ≤ maxFileSize))
    ∧ (dropzoneAccepts f reportAcceptList = false →
        ∀ (cur : Option BFile) (dropped : List BFile), cur ≠ some f →
          onDropReport cur (reportAcceptedBatch dropped) ≠ some f) := by
  refine ⟨reportAccept_iff f, ?_⟩
  intro hrej cur dropped hcur
  have hnm := not_mem_reportAcceptedBatch f hrej dropped
  cases hb : reportAcceptedBatch dropped with
  | nil => simpa [onDropReport, hb] using hcur
  | cons g t =>
      simp only [onDropReport, hb]
      intro hg
      apply hnm
      rw [hb, (Option.some.injEq g f).mp hg]
      exact List.mem_cons_self f t

/-- Witness for C3 (amended): dropping an oversize PDF alone leaves the
main report unset — the rejected file does not become the primary
document. -/
theorem report_accept_characterized_witness :
    onDropReport none (reportAcceptedBatch [oversizePdf]) ≠ some oversizePdf :=
  (report_accept_characterized oversizePdf).2 (by decide) none [oversizePdf] (by decide)

/-- Counterexample to C4 as stated: a small PDF is accepted by the
main-report dropzone but rejected by the photos dropzone, whose accept
config has no application/pdf entry. -/
theorem photo_intake_rejects_pdf :
    dropzoneAccepts smallPdf reportAcceptList = true
    ∧ dropzoneAccepts smallPdf photoAcceptList = false := by
  constructor <;> decide

/-- Claim C4 (amended): the photos dropzone carries only the image part
of the primary allow-list — a file is accepted by the main-report
dropzone exactly when it is accepted by the photos dropzone or when it
is a PDF (by MIME type or .pdf name suffix) within the size bound; thus
every accepted photo type is also accepted for the primary document,
while PDFs are accepted only as the primary document. -/
theorem photo_accept_subset_of_report (f : BFile) :
    dropzoneAccepts f reportAcceptList = true ↔
      (dropzoneAccepts f photoAcceptList = true
       ∨ ((lowerChars f.type = lowerChars "application/pdf"
           ∨ charsEndWith (lowerChars f.name) (lowerChars ".pdf") = true)
          ∧ f.size ≤ maxFileSize)) := by
  rw [reportAccept_iff, photoAccept_iff]
  tauto

/-- Counterexample to C5 as stated: with a client name of a single
space, the submitted FormData contains a client_name field whose value
is empty after trimming whitespace. -/
theorem whitespace_metadata_included :
    ("client_name", FormValue.str " ") ∈ metadataPart spacedClientInfo
    ∧ jsTrim " " = [] := by
  constructor <;> decide

/-- Claim C5 (amended): a metadata field appears in the submitted
FormData exactly when its raw value is non-empty, and it is sent
verbatim (no trimming is applied), so a whitespace-only value is
included even though it trims to the empty string; fields left as the
empty string are omitted. -/
theorem metadata_included_iff_nonempty (c : ClientInfo) (k v : String) :
    (k, FormValue.str v) ∈ metadataPart c ↔
      ((k = "client_name" ∧ v = c.name ∧ c.name ≠ "")
       ∨ (k = "client_email" ∧ v = c.email ∧ c.email ≠ "")
       ∨ (k = "additional_notes" ∧ v = c.notes ∧ c.notes ≠ "")) :=
  metadataPart_mem c k v

/-- Claim C6: the analyze call runs under a 120000 ms timeout, and on
every failure outcome the app returns to the upload step, leaves the
stored analysisResult untouched, and shows exactly one message — the
server detail when one is provided (non-empty), otherwise the fixed
fallback text. -/
theorem analyze_failure_behavior :
    analyzeTimeoutMs = 120000
    ∧ (∀ (s : AppState) (detail : Option String),
        (handleAnalyzeResult s (.failure detail)).currentStep = "upload"
        ∧ (handleAnalyzeResult s (.failure detail)).analysisResult = s.analysisResult
        ∧ (handleAnalyzeResult s (.failure detail)).error = some (analyzeErrorMessage detail))
    ∧ analyzeErrorMessage none = fallbackErrorMessage
    ∧ (∀ d : String, analyzeErrorMessage (some d) = if d = "" then fallbackErrorMessage else d) := by
  refine ⟨rfl, ?_, rfl, fun d => rfl⟩
  intro s detail
  exact ⟨rfl, rfl, rfl⟩

/-- Counterexample to C7 as stated: on a concrete result, pressing the
PDF download button delivers no bytes — it raises the placeholder alert
instead of providing the session's PDF. -/
theorem pdf_download_delivers_no_bytes :
    deliversBytes (downloadBriefing sampleResult "pdf") = false
    ∧ downloadBriefing sampleResult "pdf"
        = .alertMsg "PDF download will be implemented with backend integration" := by
  constructor <;> rfl

/-- Claim C7 (amended): the HTML download yields exactly
result.briefing_html under the name lexintake_briefing_<session_id>.html,
while the PDF button only raises a placeholder alert and delivers no
bytes for the session. -/
theorem download_surface_behavior (r : AnalysisResultData) :
    downloadBriefing r "html"
      = .saveFile ("lexintake_briefing_" ++ r.session_id ++ ".html") r.briefing_html "text/html"
    ∧ downloadBriefing r "pdf"
        = .alertMsg "PDF download will be implemented with backend integration"
    ∧ deliversBytes (downloadBriefing r "pdf") = false := by
  refine ⟨rfl, rfl, rfl⟩

/-- Claim C8: the photos entries of the submitted FormData are the
additionalPhotos in list order, and rendering the (spec-ordered)
photo_analyses produces the labels Photo 1, Photo 2, ... in that same
order, so client-facing numbering matches submission order. -/
theorem photo_order_preserved (rep : BFile) (photos : List BFile)
    (c : ClientInfo) (descs : List String) :
    formDataPhotos (buildFormData rep photos c) = photos
    ∧ renderPhotoLabels (specPhotoAnalyses descs)
        = (List.range descs.length).map (fun i => "Photo " ++ toString (i + 1)) :=
  ⟨formDataPhotos_build rep photos c, renderPhotoLabels_spec descs⟩

/-- Claim C9: when extraction_confidence is absent or zero, neither the
confidence indicator nor the missing_information warning is rendered,
regardless of missing_information. -/
theorem confidence_gate_hides_quality_card (a : CaseAnalysis)
    (h : a.extraction_confidence = none ∨ a.extraction_confidence = some 0) :
    showsConfidenceIndicator a = false ∧ showsMissingWarning a = false := by
  have hc : showsConfidenceIndicator a = false := by
    cases h with
    | inl h => simp [showsConfidenceIndicator, h]
    | inr h => simp [showsConfidenceIndicator, h]
  exact ⟨hc, by simp [showsMissingWarning, hc]⟩

/-- Witness for C9: with confidence exactly 0 and a non-empty
missing_information list, neither the indicator nor the warning shows. -/
theorem confidence_gate_hides_quality_card_witness :
    showsConfidenceIndicator zeroConfidenceAnalysis = false
    ∧ showsMissingWarning zeroConfidenceAnalysis = false :=
  confidence_gate_hides_quality_card zeroConfidenceAnalysis (Or.inr rfl)

/-- Claim C10: whenever party_a_fault_percentage is non-null the fault
distribution block is rendered, and party B's box shows the
party_b_fault_percentage expression with no presence check, so with a
null party B percentage the box renders with an empty value (a bare
percent sign). -/
theorem partyB_box_rendered_without_check (fa : FaultAssessment) (a : ℚ)
    (h : fa.party_a_fault_percentage = some a) :
    renderFaultDistribution fa ≠ .hidden
    ∧ renderFaultDistribution fa
        = .shown (toString a ++ "%") (jsxNumText fa.party_b_fault_percentage ++ "%")
    ∧ (fa.party_b_fault_percentage = none →
        renderFaultDistribution fa = .shown (toString a ++ "%") "%") := by
  refine ⟨?_, ?_, ?_⟩
  · simp [renderFaultDistribution, h]
  · simp [renderFaultDistribution, h]
  · intro hb
    simp [renderFaultDistribution, h, jsxNumText, hb]

/-- Witness for C10: with a 70 percent party A share and a null party B
share, the block is rendered and party B's box holds a bare percent
sign. -/
theorem partyB_box_rendered_without_check_witness :
    renderFaultDistribution partyAOnlyFault = .shown (toString (70 : ℚ) ++ "%") "%" :=
  (partyB_box_rendered_without_check partyAOnlyFault 70 rfl).2.2 rfl

end LexIntake
